import Mathlib

/-!
Verification of the trust-scoring and age-recommendation core of the
weixuebaohe repository, against its natural-language specification.

The embedding translates the two engines:
* `TrustScoreEngine` (src/services/GamePublisher.ts, second module in the file)
* `AgeRecommendationEngine` (src/unnamed/part_002, first module)

Numbers are modelled as exact rationals (`ℚ`); JavaScript decimal literals
such as `0.4` denote the corresponding exact rational. Counters are `ℕ`,
ages are `ℤ`. `Date.now()` is passed explicitly as a `now : ℚ` parameter
wherever the source calls it.
-/

namespace Weixue

/-- `SecurityStatus` from src/types/game.ts: the four per-item safety flags. -/
structure SecurityStatus where
  hasAds : Bool
  hasTracking : Bool
  hasExternalLinks : Bool
  contentModerated : Bool

/-- The part of `TrustBadge` (src/types/game.ts) that the scoring engine
reads: the engine accesses `game.trustBadge.securityChecks`. -/
structure TrustBadge where
  securityChecks : SecurityStatus

/-- `GameStats` from src/types/game.ts: usage counters.  `likes`, `opens`,
`reports` are non-negative integers; `avgPlayTime` is a (minutes) number. -/
structure GameStats where
  likes : ℕ
  opens : ℕ
  reports : ℕ
  avgPlayTime : ℚ

/-- The fields of `GameCard` (src/types/game.ts) that the scoring engine
reads.  `lastPlayed` is optional in the source (`lastPlayed?: number`). -/
structure GameCard where
  ageRange : ℤ × ℤ
  trustBadge : TrustBadge
  stats : GameStats
  lastPlayed : Option ℚ

/-- `TrustLevel` from src/types/game.ts: `'verified' | 'featured' | 'hall'`. -/
inductive TrustLevel where
  | verified
  | featured
  | hall
deriving DecidableEq, Repr

namespace TrustScoreEngine

/-- `TrustScoreEngine.getBaseScore` (GamePublisher.ts lines 227-246):
play-time score `min(avgPlayTime/60, 1)` weighted 0.4, like rate
`likes/opens` (0 when `opens = 0`) weighted 0.4, and `1 - reports/opens`
(report rate 0 when `opens = 0`) weighted 0.2.  The source's
`stats.avgPlayTime || 0` only replaces a missing/zero value by 0, which is
the identity on a rational field. -/
def getBaseScore (game : GameCard) : ℚ :=
  let stats := game.stats
  let avgPlayTime : ℚ := stats.avgPlayTime
  let playTimeScore : ℚ := min (avgPlayTime / 60) 1
  let likeRate : ℚ := if stats.opens > 0 then (stats.likes : ℚ) / (stats.opens : ℚ) else 0
  let reportRate : ℚ := if stats.opens > 0 then (stats.reports : ℚ) / (stats.opens : ℚ) else 0
  playTimeScore * 0.4 + likeRate * 0.4 + (1 - reportRate) * 0.2

/-- `TrustScoreEngine.getAgeMatchScore` (GamePublisher.ts lines 254-279):
1.0 when no user age is supplied; otherwise 1.0 on containment, 0.8 within
one year of either bound, 0.6 within two years, else 0.3. -/
def getAgeMatchScore (game : GameCard) (userAge : Option ℤ) : ℚ :=
  match userAge with
  | none => 1.0
  | some u =>
    let minAge := game.ageRange.1
    let maxAge := game.ageRange.2
    if u ≥ minAge ∧ u ≤ maxAge then 1.0
    else if |u - minAge| ≤ 1 ∨ |u - maxAge| ≤ 1 then 0.8
    else if |u - minAge| ≤ 2 ∨ |u - maxAge| ≤ 2 then 0.6
    else 0.3

/-- `TrustScoreEngine.getRiskLevelScore` (GamePublisher.ts lines 286-312):
multiplicative penalties 0.7 / 0.8 / 0.9 for ads / tracking / external
links, a no-op ×1.0 for `contentModerated`, floored at 0.5. -/
def getRiskLevelScore (game : GameCard) : ℚ :=
  let securityChecks := game.trustBadge.securityChecks
  let score : ℚ := 1.0
  let score := if securityChecks.hasAds then score * 0.7 else score
  let score := if securityChecks.hasTracking then score * 0.8 else score
  let score := if securityChecks.hasExternalLinks then score * 0.9 else score
  let score := if securityChecks.contentModerated then score * 1.0 else score
  max score 0.5

/-- `TrustScoreEngine.getFreshnessScore` (GamePublisher.ts lines 319-340):
days since `lastPlayed` (defaulting to `now` when absent or 0, from the
source's `game.lastPlayed || Date.now()`) bucketed to 1.0 / 0.9 / 0.8 / 0.7. -/
def getFreshnessScore (game : GameCard) (now : ℚ) : ℚ :=
  let lastUpdated : ℚ :=
    match game.lastPlayed with
    | none => now
    | some t => if t = 0 then now else t
  let daysSinceUpdate : ℚ := (now - lastUpdated) / (1000 * 60 * 60 * 24)
  if daysSinceUpdate ≤ 7 then 1.0
  else if daysSinceUpdate ≤ 30 then 0.9
  else if daysSinceUpdate ≤ 90 then 0.8
  else 0.7

/-- `TrustScoreEngine.calculateTrustScore` (GamePublisher.ts lines 211-219):
the product of base score, age match (called as `this.getAgeMatchScore(game)`,
i.e. with `userAge` omitted), risk level, and freshness. -/
def calculateTrustScore (game : GameCard) (now : ℚ) : ℚ :=
  let baseScore := getBaseScore game
  let ageMatch := getAgeMatchScore game none
  let riskLevel := getRiskLevelScore game
  let freshness := getFreshnessScore game now
  baseScore * ageMatch * riskLevel * freshness

/-- `TrustScoreEngine.getTrustLevel` (GamePublisher.ts lines 368-376). -/
def getTrustLevel (trustScore : ℚ) : TrustLevel :=
  if trustScore ≥ 0.9 then .hall
  else if trustScore ≥ 0.75 then .featured
  else .verified

/-- `TrustScoreEngine.isGameSafe` (GamePublisher.ts lines 428-444). -/
def isGameSafe (game : GameCard) (strictMode : Bool) : Bool :=
  let securityChecks := game.trustBadge.securityChecks
  if !securityChecks.contentModerated then false
  else if strictMode && (securityChecks.hasAds || securityChecks.hasTracking) then false
  else true

end TrustScoreEngine

/-- One entry of `UserHistory.recentGames` (src/types/game.ts):
`{ gameId, ageRange, playedAt }`. -/
structure InteractionRecord where
  gameId : String
  ageRange : ℤ × ℤ
  playedAt : ℚ

/-- `UserHistory` from src/types/game.ts:
`{ recentGames: InteractionRecord[], preferredAge?: [number, number] }`. -/
structure UserHistory where
  recentGames : List InteractionRecord
  preferredAge : Option (ℤ × ℤ)

namespace AgeRecommendationEngine

/-- `AgeRecommendationEngine.getDefaultAge` (part_002 lines 53-55). -/
def getDefaultAge : ℤ × ℤ := (6, 9)

/-- The first-occurrence key order of the tally `Map` built by
`getMostCommonAgeRange` (part_002 lines 144-155): a JavaScript `Map`
iterates its keys in insertion order, i.e. in order of first occurrence. -/
def firstOccurrences : List (ℤ × ℤ) → List (ℤ × ℤ)
  | [] => []
  | x :: xs => x :: (firstOccurrences xs).filter (· ≠ x)

/-- The contents of the tally `Map` of `getMostCommonAgeRange` (part_002
lines 144-155) after the `forEach` loop, as an association list in
insertion (= first occurrence) order: each distinct age range paired with
its number of occurrences.  The string key `` `${min}-${max}` `` used by the
source is injective on integer pairs, so ranges are compared directly. -/
def tallyCounts (ageRanges : List (ℤ × ℤ)) : List ((ℤ × ℤ) × ℕ) :=
  (firstOccurrences ageRanges).map (fun b => (b, ageRanges.count b))

/-- The head of the source's
`Array.from(counts.values()).sort((a, b) => b.count - a.count)` (part_002
line 158): JavaScript `Array.prototype.sort` is stable (ES2019), so the
first element of the descending-by-count sort is the entry with the
maximal count that occurs earliest in insertion order.  `pickTop` computes
exactly that: it keeps an earlier entry unless a later one is strictly
greater. -/
def pickTop : List ((ℤ × ℤ) × ℕ) → Option ((ℤ × ℤ) × ℕ)
  | [] => none
  | x :: xs =>
    match pickTop xs with
    | none => some x
    | some y => if y.2 > x.2 then some y else some x

/-- `AgeRecommendationEngine.getMostCommonAgeRange` (part_002 lines
138-161): `none` on an empty list, otherwise the age range of the first
entry of the stable descending-by-count sort of the tally. -/
def getMostCommonAgeRange (ageRanges : List (ℤ × ℤ)) : Option (ℤ × ℤ) :=
  if ageRanges.isEmpty then none
  else (pickTop (tallyCounts ageRanges)).map (·.1)

/-- `AgeRecommendationEngine.recommendAge` (part_002 lines 31-47).  Note
the order of the guards in the source: the empty-history default is
checked before `preferredAge`. -/
def recommendAge (userHistory : Option UserHistory) : ℤ × ℤ :=
  match userHistory with
  | none => getDefaultAge
  | some h =>
    if h.recentGames.isEmpty then getDefaultAge
    else
      match h.preferredAge with
      | some p => p
      | none =>
        let recentAges := h.recentGames.map (·.ageRange)
        match getMostCommonAgeRange recentAges with
        | some mostCommon => mostCommon
        | none => getDefaultAge

/-- `AgeRecommendationEngine.getAgeMatchScore` (part_002 lines 111-131). -/
def getAgeMatchScore (userAge : ℤ) (gameAgeRange : ℤ × ℤ) : ℚ :=
  let minAge := gameAgeRange.1
  let maxAge := gameAgeRange.2
  if userAge ≥ minAge ∧ userAge ≤ maxAge then 1.0
  else if |userAge - minAge| ≤ 1 ∨ |userAge - maxAge| ≤ 1 then 0.8
  else if |userAge - minAge| ≤ 2 ∨ |userAge - maxAge| ≤ 2 then 0.6
  else 0.3

/-- `AgeRecommendationEngine.recordAgeSelection` (part_002 lines 169-187):
set `preferredAge`, prepend a new `'age-selection'` record stamped with
`Date.now()` (passed here as `now`), and keep only the first 49 previous
entries (`slice(0, 49)`). -/
def recordAgeSelection (userHistory : Option UserHistory) (ageRange : ℤ × ℤ)
    (now : ℚ) : UserHistory :=
  let history : UserHistory := userHistory.getD { recentGames := [], preferredAge := none }
  { history with
    preferredAge := some ageRange
    recentGames :=
      { gameId := "age-selection", ageRange := ageRange, playedAt := now }
        :: history.recentGames.take 49 }

end AgeRecommendationEngine

open TrustScoreEngine AgeRecommendationEngine

/-! ## Supporting lemmas for the most-common-age-range analysis -/

theorem mem_firstOccurrences {l : List (ℤ × ℤ)} {b : ℤ × ℤ} :
    b ∈ firstOccurrences l ↔ b ∈ l := by
  induction l with
  | nil => simp [firstOccurrences]
  | cons x xs ih =>
    simp only [firstOccurrences, List.mem_cons, List.mem_filter,
      decide_eq_true_eq, ih]
    constructor
    · rintro (rfl | ⟨hb, _⟩)
      · exact Or.inl rfl
      · exact Or.inr hb
    · rintro (rfl | hb)
      · exact Or.inl rfl
      · by_cases hbx : b = x
        · exact Or.inl hbx
        · exact Or.inr ⟨hb, hbx⟩

theorem indexOf_cons_self_pair (a : ℤ × ℤ) (l : List (ℤ × ℤ)) :
    (a :: l).indexOf a = 0 := by
  simp [List.indexOf_cons]

theorem indexOf_cons_ne_pair {a b : ℤ × ℤ} (l : List (ℤ × ℤ)) (h : b ≠ a) :
    (b :: l).indexOf a = l.indexOf a + 1 := by
  have hb : (b == a) = false := beq_eq_false_iff_ne.mpr h
  simp [List.indexOf_cons, hb]

/-- The keys of the tally appear in strictly increasing order of their
first occurrence in the original list. -/
theorem firstOccurrences_pairwise_indexOf (l : List (ℤ × ℤ)) :
    (firstOccurrences l).Pairwise (fun a b => l.indexOf a < l.indexOf b) := by
  induction l with
  | nil => simp [firstOccurrences]
  | cons x xs ih =>
    rw [firstOccurrences, List.pairwise_cons]
    constructor
    · intro b hb
      have hbx : b ≠ x := by
        simpa using (List.mem_filter.mp hb).2
      rw [indexOf_cons_self_pair, indexOf_cons_ne_pair _ (Ne.symm hbx)]
      omega
    · refine List.Pairwise.imp_of_mem ?_
        (List.Pairwise.sublist (List.filter_sublist _) ih)
      intro a b ha hb hab
      have hax : a ≠ x := by simpa using (List.mem_filter.mp ha).2
      have hbx : b ≠ x := by simpa using (List.mem_filter.mp hb).2
      rw [indexOf_cons_ne_pair _ (Ne.symm hax), indexOf_cons_ne_pair _ (Ne.symm hbx)]
      omega

theorem pickTop_cons (x : (ℤ × ℤ) × ℕ) (xs : List ((ℤ × ℤ) × ℕ)) :
    pickTop (x :: xs) =
      match pickTop xs with
      | none => some x
      | some y => if y.2 > x.2 then some y else some x := rfl

theorem pickTop_eq_none {l : List ((ℤ × ℤ) × ℕ)} (h : pickTop l = none) :
    l = [] := by
  cases l with
  | nil => rfl
  | cons x xs =>
    cases hpt : pickTop xs with
    | none =>
      rw [pickTop_cons, hpt] at h
      have h' : some x = none := h
      exact Option.noConfusion h'
    | some y =>
      rw [pickTop_cons, hpt] at h
      have h' : (if y.2 > x.2 then some y else some x) = none := h
      split at h' <;> exact Option.noConfusion h'

/-- The entry returned by `pickTop` splits the list into a strict-prefix
of strictly smaller counts, the entry itself, and a suffix of counts no
larger: exactly the head of a stable descending-by-count sort. -/
theorem pickTop_split :
    ∀ (l : List ((ℤ × ℤ) × ℕ)) (z : (ℤ × ℤ) × ℕ), pickTop l = some z →
      ∃ l₁ l₂, l = l₁ ++ z :: l₂ ∧ (∀ w ∈ l₁, w.2 < z.2) ∧ ∀ w ∈ l₂, w.2 ≤ z.2 := by
  intro l
  induction l with
  | nil => intro z h; exact Option.noConfusion h
  | cons x xs ih =>
    intro z h
    cases hpt : pickTop xs with
    | none =>
      rw [pickTop_cons, hpt] at h
      have h' : some x = some z := h
      obtain rfl : x = z := Option.some.inj h'
      have hxs : xs = [] := pickTop_eq_none hpt
      subst hxs
      exact ⟨[], [], rfl, by simp, by simp⟩
    | some y =>
      rw [pickTop_cons, hpt] at h
      have h' : (if y.2 > x.2 then some y else some x) = some z := h
      by_cases hgt : y.2 > x.2
      · rw [if_pos hgt] at h'
        obtain rfl : y = z := Option.some.inj h'
        obtain ⟨l₁, l₂, heq, h₁, h₂⟩ := ih y hpt
        refine ⟨x :: l₁, l₂, by rw [heq, List.cons_append], ?_, h₂⟩
        intro w hw
        rcases List.mem_cons.mp hw with rfl | hw'
        · exact hgt
        · exact h₁ w hw'
      · rw [if_neg hgt] at h'
        obtain rfl : x = z := Option.some.inj h'
        push_neg at hgt
        obtain ⟨l₁, l₂, heq, h₁, h₂⟩ := ih y hpt
        refine ⟨[], xs, rfl, by simp, ?_⟩
        intro w hw
        rw [heq] at hw
        rcases List.mem_append.mp hw with hw1 | hw2
        · exact le_of_lt (lt_of_lt_of_le (h₁ w hw1) hgt)
        · rcases List.mem_cons.mp hw2 with rfl | hw3
          · exact hgt
          · exact le_trans (h₂ w hw3) hgt

/-- Characterization of the winning tally entry: its key occurs in the
list, carries the occurrence count, the count is maximal, and among tied
counts its first occurrence comes earliest. -/
theorem mostCommon_spec (ages : List (ℤ × ℤ)) (z : (ℤ × ℤ) × ℕ)
    (hz : pickTop (tallyCounts ages) = some z) :
    z.1 ∈ ages ∧ z.2 = ages.count z.1 ∧
    (∀ b ∈ ages, ages.count b ≤ ages.count z.1) ∧
    (∀ b ∈ ages, ages.count b = ages.count z.1 →
      ages.indexOf z.1 ≤ ages.indexOf b) := by
  obtain ⟨l₁, l₂, heq, hlt, hle⟩ := pickTop_split _ z hz
  have hzmem : z ∈ tallyCounts ages := by rw [heq]; simp
  obtain ⟨b₀, hb₀, hzb⟩ := List.mem_map.mp hzmem
  have hz1 : z.1 = b₀ := by rw [← hzb]
  have hz2 : z.2 = ages.count z.1 := by rw [← hzb]
  have hmemtally : ∀ b ∈ ages, (b, ages.count b) ∈ tallyCounts ages := by
    intro b hb
    exact List.mem_map.mpr ⟨b, mem_firstOccurrences.mpr hb, rfl⟩
  have hub : ∀ w ∈ tallyCounts ages, w.2 ≤ z.2 := by
    rw [heq]
    intro w hw
    rcases List.mem_append.mp hw with hw1 | hw2
    · exact le_of_lt (hlt w hw1)
    · rcases List.mem_cons.mp hw2 with rfl | hw3
      · exact le_refl _
      · exact hle w hw3
  have hpw : (tallyCounts ages).Pairwise
      (fun w v => ages.indexOf w.1 < ages.indexOf v.1) := by
    unfold tallyCounts
    rw [List.pairwise_map]
    exact firstOccurrences_pairwise_indexOf ages
  refine ⟨by rw [hz1]; exact mem_firstOccurrences.mp hb₀, hz2, ?_, ?_⟩
  · intro b hb
    have := hub _ (hmemtally b hb)
    simpa [← hz2] using this
  · intro b hb hcount
    have hbt : (b, ages.count b) ∈ tallyCounts ages := hmemtally b hb
    rw [heq] at hbt hpw
    rcases List.mem_append.mp hbt with hb1 | hb2
    · exact absurd (hlt _ hb1) (by simp [hcount, ← hz2])
    · rcases List.mem_cons.mp hb2 with hbz | hb3
      · have : b = z.1 := congrArg Prod.fst hbz
        rw [this]
      · have hS := (List.pairwise_append.mp hpw).2.1
        have := (List.pairwise_cons.mp hS).1 _ hb3
        exact le_of_lt this

/-! ## Claims -/

/-- C1: the claim asserts `calculateTrustScore` stays within [0, 1] for all
non-negative integer counters.  The code does not clamp the like rate, so
`likes = 10, opens = 1` (all other inputs benign: no reports, zero play
time, no security flags, freshly updated) yields a base score of 4.2 and a
total trust score of 21/5 > 1, contradicting the code's own doc comment
"信任度分数 (0-1)". -/
theorem C1_trustScore_exceeds_one :
    TrustScoreEngine.calculateTrustScore
      { ageRange := (3, 6)
        trustBadge := { securityChecks :=
          { hasAds := false, hasTracking := false, hasExternalLinks := false
            contentModerated := true } }
        stats := { likes := 10, opens := 1, reports := 0, avgPlayTime := 0 }
        lastPlayed := some 0 } 0 = 21 / 5 ∧ (1 : ℚ) < 21 / 5 := by
  constructor
  · norm_num [TrustScoreEngine.calculateTrustScore, TrustScoreEngine.getBaseScore,
      TrustScoreEngine.getAgeMatchScore, TrustScoreEngine.getRiskLevelScore,
      TrustScoreEngine.getFreshnessScore]
  · norm_num

/-- C2 counterexample: with `preferredAge = (3, 6)` but empty
`recentGames`, `recommendAge` returns the default (6, 9), not the
preference — the source checks for an empty history before it consults
`preferredAge`. -/
theorem C2_counterexample :
    AgeRecommendationEngine.recommendAge
        (some { recentGames := [], preferredAge := some (3, 6) }) = (6, 9) ∧
      ((6 : ℤ), (9 : ℤ)) ≠ ((3 : ℤ), (6 : ℤ)) := by
  exact ⟨rfl, by decide⟩

/-- C2 (amended): whenever `preferredAge` is set and `recentGames` is
non-empty, `recommendAge` returns exactly the preferred range, regardless
of the contents of `recentGames`. -/
theorem C2_preferredAge_wins (h : UserHistory) (p : ℤ × ℤ)
    (hp : h.preferredAge = some p) (hne : h.recentGames ≠ []) :
    AgeRecommendationEngine.recommendAge (some h) = p := by
  unfold AgeRecommendationEngine.recommendAge
  simp only [hp]
  rw [if_neg (by simp [List.isEmpty_iff, hne])]

/-- C2 witness: the amended theorem applied to a concrete one-entry
history with `preferredAge = (3, 6)`. -/
theorem C2_preferredAge_wins_witness :
    AgeRecommendationEngine.recommendAge
      (some { recentGames := [{ gameId := "g", ageRange := (6, 9), playedAt := 0 }]
              preferredAge := some (3, 6) }) = (3, 6) :=
  C2_preferredAge_wins _ (3, 6) rfl (by simp)

/-- C3 counterexample: the claim (following §8 of the spec) says the score
exactly 0.9 classifies as `featured`; the code's `getTrustLevel` tests
`trustScore >= 0.9` first and returns `hall` there. -/
theorem C3_counterexample :
    TrustScoreEngine.getTrustLevel 0.9 ≠ TrustLevel.featured := by
  norm_num [TrustScoreEngine.getTrustLevel]
  decide

/-- C3 (amended): the boundary table matching the code: 0.9 → hall,
0.8999 → featured, 0.75 → featured, 0.7499 → verified, 0.9001 → hall. -/
theorem C3_boundaries :
    TrustScoreEngine.getTrustLevel 0.9 = TrustLevel.hall ∧
    TrustScoreEngine.getTrustLevel 0.8999 = TrustLevel.featured ∧
    TrustScoreEngine.getTrustLevel 0.75 = TrustLevel.featured ∧
    TrustScoreEngine.getTrustLevel 0.7499 = TrustLevel.verified ∧
    TrustScoreEngine.getTrustLevel 0.9001 = TrustLevel.hall := by
  refine ⟨?_, ?_, ?_, ?_, ?_⟩ <;> norm_num [TrustScoreEngine.getTrustLevel]

/-- C4: with no preferred age and a non-empty history, `recommendAge`
returns an age band that occurs in the history, whose occurrence count is
maximal, and which — among bands tied at the maximal count — is the band
first encountered during the single pass over the list (its first
occurrence has the least index), matching the stable descending sort of
the insertion-ordered tally. -/
theorem C4_most_common_first_encountered (h : UserHistory)
    (hp : h.preferredAge = none) (hne : h.recentGames ≠ []) :
    AgeRecommendationEngine.recommendAge (some h) ∈ h.recentGames.map (·.ageRange) ∧
    (∀ b ∈ h.recentGames.map (·.ageRange),
      (h.recentGames.map (·.ageRange)).count b ≤
        (h.recentGames.map (·.ageRange)).count
          (AgeRecommendationEngine.recommendAge (some h))) ∧
    (∀ b ∈ h.recentGames.map (·.ageRange),
      (h.recentGames.map (·.ageRange)).count b =
          (h.recentGames.map (·.ageRange)).count
            (AgeRecommendationEngine.recommendAge (some h)) →
        (h.recentGames.map (·.ageRange)).indexOf
            (AgeRecommendationEngine.recommendAge (some h)) ≤
          (h.recentGames.map (·.ageRange)).indexOf b) := by
  have hagesne : h.recentGames.map (·.ageRange) ≠ [] := by
    simpa [List.map_eq_nil_iff] using hne
  have htcne : tallyCounts (h.recentGames.map (·.ageRange)) ≠ [] := by
    obtain ⟨a, as, hcons⟩ := List.exists_cons_of_ne_nil hagesne
    rw [hcons]
    simp [tallyCounts, firstOccurrences]
  obtain ⟨z, hz⟩ :
      ∃ z, pickTop (tallyCounts (h.recentGames.map (·.ageRange))) = some z := by
    cases hzz : pickTop (tallyCounts (h.recentGames.map (·.ageRange))) with
    | none => exact absurd (pickTop_eq_none hzz) htcne
    | some z => exact ⟨z, rfl⟩
  have hmc : AgeRecommendationEngine.getMostCommonAgeRange
      (h.recentGames.map (·.ageRange)) = some z.1 := by
    unfold AgeRecommendationEngine.getMostCommonAgeRange
    rw [if_neg (by simp [List.isEmpty_iff, hagesne]), hz]
    rfl
  have hrec : AgeRecommendationEngine.recommendAge (some h) = z.1 := by
    simp only [AgeRecommendationEngine.recommendAge, hp]
    rw [if_neg (by simp [List.isEmpty_iff, hne]), hmc]
  have spec := mostCommon_spec (h.recentGames.map (·.ageRange)) z hz
  rw [hrec]
  exact ⟨spec.1, spec.2.2.1, spec.2.2.2⟩

/-- C4 witness: the history [(3,6), (6,9), (6,9), (3,6)] — bands (3,6) and
(6,9) tie at count 2 and the code picks the first-encountered (3,6); the
membership conjunct of the theorem applied there. -/
theorem C4_most_common_first_encountered_witness :
    AgeRecommendationEngine.recommendAge
        (some { recentGames :=
                  [{ gameId := "a", ageRange := (3, 6), playedAt := 0 },
                   { gameId := "b", ageRange := (6, 9), playedAt := 1 },
                   { gameId := "c", ageRange := (6, 9), playedAt := 2 },
                   { gameId := "d", ageRange := (3, 6), playedAt := 3 }],
                preferredAge := none }) ∈
      (([{ gameId := "a", ageRange := (3, 6), playedAt := 0 },
         { gameId := "b", ageRange := (6, 9), playedAt := 1 },
         { gameId := "c", ageRange := (6, 9), playedAt := 2 },
         { gameId := "d", ageRange := (3, 6), playedAt := 3 }] :
          List InteractionRecord).map (·.ageRange)) :=
  (C4_most_common_first_encountered _ rfl (List.cons_ne_nil _ _)).1

/-- C5: `getTrustLevel` returns `hall` for scores ≥ 0.9, `featured` on
[0.75, 0.9), and `verified` below 0.75; both boundaries belong to the
higher tier. -/
theorem C5_trustLevel_thresholds (s : ℚ) :
    (0.9 ≤ s → TrustScoreEngine.getTrustLevel s = TrustLevel.hall) ∧
    (0.75 ≤ s ∧ s < 0.9 → TrustScoreEngine.getTrustLevel s = TrustLevel.featured) ∧
    (s < 0.75 → TrustScoreEngine.getTrustLevel s = TrustLevel.verified) := by
  unfold TrustScoreEngine.getTrustLevel
  refine ⟨fun h1 => ?_, fun h2 => ?_, fun h3 => ?_⟩
  · rw [if_pos h1]
  · rw [if_neg (by exact not_le.mpr h2.2), if_pos h2.1]
  · rw [if_neg (by exact not_le.mpr (h3.trans (by norm_num))),
      if_neg (by exact not_le.mpr h3)]

/-- C5 witness: the three threshold implications discharged at 0.95, 0.8
and 0.5 respectively. -/
theorem C5_trustLevel_thresholds_witness :
    TrustScoreEngine.getTrustLevel 0.95 = TrustLevel.hall ∧
    TrustScoreEngine.getTrustLevel 0.8 = TrustLevel.featured ∧
    TrustScoreEngine.getTrustLevel 0.5 = TrustLevel.verified :=
  ⟨(C5_trustLevel_thresholds 0.95).1 (by norm_num),
   (C5_trustLevel_thresholds 0.8).2.1 ⟨by norm_num, by norm_num⟩,
   (C5_trustLevel_thresholds 0.5).2.2 (by norm_num)⟩

/-- C6: with `opens = 0` the like-rate term is 0 and the report rate is 0,
so the suppression term `1 - reportRate` is 1; the base score is then the
play-time term alone plus the constant 0.2, and the computation is total
(a value exists for all counter values by construction). -/
theorem C6_zero_opens_base_score (game : GameCard)
    (h : game.stats.opens = 0) :
    TrustScoreEngine.getBaseScore game =
      min (game.stats.avgPlayTime / 60) 1 * 0.4 + 0 * 0.4 + (1 - 0) * 0.2 := by
  simp [TrustScoreEngine.getBaseScore, h]

/-- C6 witness: the theorem applied to a game with `opens = 0`,
`likes = 7`, `reports = 5`, `avgPlayTime = 30`. -/
theorem C6_zero_opens_base_score_witness :
    TrustScoreEngine.getBaseScore
      { ageRange := (3, 6)
        trustBadge := { securityChecks :=
          { hasAds := false, hasTracking := false, hasExternalLinks := false
            contentModerated := true } }
        stats := { likes := 7, opens := 0, reports := 5, avgPlayTime := 30 }
        lastPlayed := none } =
      min ((30 : ℚ) / 60) 1 * 0.4 + 0 * 0.4 + (1 - 0) * 0.2 :=
  C6_zero_opens_base_score _ rfl

/-- C7: `isGameSafe` is false whenever `contentModerated` is false; in
strict mode it is additionally false when `hasAds` or `hasTracking`; in
all remaining cases it is true. -/
theorem C7_isGameSafe_characterization (game : GameCard) (strictMode : Bool) :
    (game.trustBadge.securityChecks.contentModerated = false →
      TrustScoreEngine.isGameSafe game strictMode = false) ∧
    (strictMode = true ∧
        (game.trustBadge.securityChecks.hasAds = true ∨
          game.trustBadge.securityChecks.hasTracking = true) →
      TrustScoreEngine.isGameSafe game strictMode = false) ∧
    (game.trustBadge.securityChecks.contentModerated = true ∧
        (strictMode = true →
          game.trustBadge.securityChecks.hasAds = false ∧
            game.trustBadge.securityChecks.hasTracking = false) →
      TrustScoreEngine.isGameSafe game strictMode = true) := by
  obtain ⟨ar, ⟨⟨ads, tr, ext, mo⟩⟩, st, lp⟩ := game
  cases ads <;> cases tr <;> cases mo <;> cases strictMode <;>
    simp [TrustScoreEngine.isGameSafe]

/-- C7 witness: `contentModerated = true, hasAds = true` is unsafe in
strict mode and safe otherwise, via the characterization. -/
theorem C7_isGameSafe_witness :
    TrustScoreEngine.isGameSafe
        { ageRange := (3, 6)
          trustBadge := { securityChecks :=
            { hasAds := true, hasTracking := false, hasExternalLinks := false
              contentModerated := true } }
          stats := { likes := 0, opens := 0, reports := 0, avgPlayTime := 0 }
          lastPlayed := none } true = false ∧
    TrustScoreEngine.isGameSafe
        { ageRange := (3, 6)
          trustBadge := { securityChecks :=
            { hasAds := true, hasTracking := false, hasExternalLinks := false
              contentModerated := true } }
          stats := { likes := 0, opens := 0, reports := 0, avgPlayTime := 0 }
          lastPlayed := none } false = true :=
  ⟨(C7_isGameSafe_characterization _ true).2.1 ⟨rfl, Or.inl rfl⟩,
   (C7_isGameSafe_characterization _ false).2.2 ⟨rfl, by simp⟩⟩

/-- C8: the recommendation engine's `getAgeMatchScore` and the trust
engine's age-fit factor (with a user age supplied) agree on every integer
user age and every age range. -/
theorem C8_ageMatchScore_agree (userAge : ℤ) (r : ℤ × ℤ) (game : GameCard)
    (h : game.ageRange = r) :
    AgeRecommendationEngine.getAgeMatchScore userAge r =
      TrustScoreEngine.getAgeMatchScore game (some userAge) := by
  subst h
  rfl

/-- C8 witness: both scores at user age 7 against the band (3, 6). -/
theorem C8_ageMatchScore_agree_witness :
    AgeRecommendationEngine.getAgeMatchScore 7 (3, 6) =
      TrustScoreEngine.getAgeMatchScore
        { ageRange := (3, 6)
          trustBadge := { securityChecks :=
            { hasAds := false, hasTracking := false, hasExternalLinks := false
              contentModerated := true } }
          stats := { likes := 0, opens := 0, reports := 0, avgPlayTime := 0 }
          lastPlayed := none } (some 7) :=
  C8_ageMatchScore_agree 7 (3, 6) _ rfl

/-- C9: `recordAgeSelection` prepends the new `'age-selection'` record and
keeps only the first 49 previous entries (a prefix, hence in original
order), so the resulting list never exceeds 50 entries. -/
theorem C9_recordAgeSelection_bounded (h : UserHistory) (r : ℤ × ℤ) (now : ℚ) :
    (AgeRecommendationEngine.recordAgeSelection (some h) r now).recentGames =
        { gameId := "age-selection", ageRange := r, playedAt := now }
          :: h.recentGames.take 49 ∧
      h.recentGames.take 49 <+: h.recentGames ∧
      (AgeRecommendationEngine.recordAgeSelection (some h) r now).recentGames.length ≤ 50 := by
  refine ⟨rfl, List.take_prefix 49 _, ?_⟩
  simp only [AgeRecommendationEngine.recordAgeSelection, Option.getD_some,
    List.length_cons, List.length_take]
  omega

/-- C10: `calculateTrustScore` invokes the age-match factor with no user
age, so that factor is 1 and the score is exactly the product of base
score, risk level and freshness; no user age can influence this entry
point. -/
theorem C10_trustScore_ignores_userAge (game : GameCard) (now : ℚ) :
    TrustScoreEngine.getAgeMatchScore game none = 1 ∧
    TrustScoreEngine.calculateTrustScore game now =
      TrustScoreEngine.getBaseScore game * TrustScoreEngine.getRiskLevelScore game *
        TrustScoreEngine.getFreshnessScore game now := by
  have h1 : TrustScoreEngine.getAgeMatchScore game none = 1 := by
    norm_num [TrustScoreEngine.getAgeMatchScore]
  refine ⟨h1, ?_⟩
  unfold TrustScoreEngine.calculateTrustScore
  rw [h1]
  ring

end Weixue
